import Mathlib

/-!
Verification of the crypto dashboard core (src/app.py) against its
specification.  The data-fetch fallback chain, the synthetic series
generator, the CoinGecko parser, the KPI metric derivation and the
sentiment scorer are shallowly embedded below; external effects (HTTP
responses, Yahoo Finance results, random draws) become explicit
parameters, so every theorem quantifies over all possible behaviours
of the external world.
-/

namespace CryptoDash

/-- One OHLCV row of a price series (one row of the pandas DataFrame).
Prices and volume are modelled as rationals, the timestamp as a rational
number of time units. -/
structure Row where
  date : ℚ
  Open : ℚ
  High : ℚ
  Low : ℚ
  Close : ℚ
  Volume : ℚ
deriving DecidableEq, Repr

/-- One candle of the CoinGecko JSON payload:
`[timestamp_ms, open, high, low, close]` (app.py line 120). -/
structure Candle where
  timestamp_ms : ℚ
  open_val : ℚ
  high_val : ℚ
  low_val : ℚ
  close_val : ℚ
deriving DecidableEq, Repr

/-- The random draws consumed by one iteration of the mock-data loop
(app.py lines 66-74).  `ret` is the `np.random.normal(0.002, 0.03)`
draw (unbounded); the `u*` fields are the `np.random.uniform` draws,
whose ranges are stated separately in `RowDraws.valid`. -/
structure RowDraws where
  ret : ℚ
  uOpen : ℚ
  uClose : ℚ
  uHigh : ℚ
  uLow : ℚ
  uVol : ℚ
deriving DecidableEq, Repr

/-- Range constraints that `np.random.uniform` guarantees for the draws
of one mock-data iteration: `uniform(a, b)` lands in `[a, b)`. -/
def RowDraws.valid (d : RowDraws) : Prop :=
  (0.98 : ℚ) ≤ d.uOpen ∧ d.uOpen < 1.02 ∧
  (0.98 : ℚ) ≤ d.uClose ∧ d.uClose < 1.02 ∧
  (1 : ℚ) ≤ d.uHigh ∧ d.uHigh < 1.02 ∧
  (0.98 : ℚ) ≤ d.uLow ∧ d.uLow < 1 ∧
  (1000000000 : ℚ) ≤ d.uVol ∧ d.uVol < 5000000000

instance (d : RowDraws) : Decidable d.valid := by
  unfold RowDraws.valid; infer_instance

/-- Base prices table of `generate_mock_data` (app.py lines 41-47);
unknown tickers default to 1000. -/
def basePrices (ticker : String) : ℚ :=
  if ticker = "BTC-USD" then 42500
  else if ticker = "ETH-USD" then 2300
  else if ticker = "SOL-USD" then 105
  else 1000

/-- Row count of `generate_mock_data` by interval (app.py lines 50-57):
1d gives 365, 1h gives 24*60, 5m gives 24*12*7, anything else 24*60*7. -/
def numPeriods (interval : String) : Nat :=
  if interval = "1d" then 365
  else if interval = "1h" then 24 * 60
  else if interval = "5m" then 24 * 12 * 7
  else 24 * 60 * 7

/-- The running price of the mock generator after the i-th iteration of
the loop: `price = price * (1 + daily_return)` starting from the base
price (app.py lines 63-68). -/
def mockPrice (base : ℚ) (draws : Nat → RowDraws) : Nat → ℚ
  | 0 => base * (1 + (draws 0).ret)
  | i + 1 => mockPrice base draws i * (1 + (draws (i + 1)).ret)

/-- The i-th row appended by the mock-data loop (app.py lines 60-82).
`dates = [now - timedelta(p) for p in range(n, 0, -1)]`, so row i is
stamped `now - (n - i)`. -/
def mockRow (now : ℚ) (base : ℚ) (draws : Nat → RowDraws) (n i : Nat) : Row :=
  let d := draws i
  let price := mockPrice base draws i
  let open_price := price * d.uOpen
  let close_price := price * d.uClose
  let high_price := max open_price close_price * d.uHigh
  let low_price := min open_price close_price * d.uLow
  { date := now - ((n - i : Nat) : ℚ)
    Open := open_price
    High := high_price
    Low := low_price
    Close := close_price
    Volume := d.uVol }

/-- `generate_mock_data(ticker, period, interval)` (app.py lines 28-86).
`period` is accepted and ignored, as in the source.  The wall clock and
the random draws are explicit parameters. -/
def generate_mock_data (ticker : String) (period : String) (interval : String)
    (now : ℚ) (draws : Nat → RowDraws) : List Row :=
  (List.range (numPeriods interval)).map
    (mockRow now (basePrices ticker) draws (numPeriods interval))

/-- One parsed CoinGecko row: timestamp divided by 1000, the four OHLC
fields copied, and a synthesized random volume (app.py lines 119-134). -/
def parseRow (c : Candle) (vol : ℚ) : Row :=
  { date := c.timestamp_ms / 1000
    Open := c.open_val
    High := c.high_val
    Low := c.low_val
    Close := c.close_val
    Volume := vol }

/-- The parsing loop of `get_coingecko_data`: candle j gets the j-th
volume draw (app.py lines 119-134). -/
def parseCandles (volDraws : Nat → ℚ) : Nat → List Candle → List Row
  | _, [] => []
  | i, c :: cs => parseRow c (volDraws i) :: parseCandles volDraws (i + 1) cs

/-- `get_coingecko_data` (app.py lines 90-140).  The HTTP layer is the
parameter `resp`: `none` models any raised exception (HTTP error,
timeout after 10s, malformed body), `some data` a parsed JSON array.
Returns `(None, False)` when the array is empty or shorter than 2,
otherwise the parsed rows together with `True`. -/
def get_coingecko_data (resp : Option (List Candle)) (volDraws : Nat → ℚ) :
    Option (List Row) × Bool :=
  match resp with
  | none => (none, false)
  | some data =>
    if data.isEmpty || data.length < 2 then (none, false)
    else (some (parseCandles volDraws 0 data), true)

/-- Ticker-to-CoinGecko-id table of `get_data` (app.py lines 196-202). -/
def coingecko_map (ticker : String) : Option String :=
  if ticker = "BTC-USD" then some "bitcoin"
  else if ticker = "ETH-USD" then some "ethereum"
  else if ticker = "SOL-USD" then some "solana"
  else none

/-- Interval-to-period table used for the Yahoo fallback and the mock
fallback (app.py lines 212-218 and 230-236); unknown intervals default
to "1y". -/
def period_map (interval : String) : String :=
  if interval = "1m" then "7d"
  else if interval = "5m" then "7d"
  else if interval = "1h" then "60d"
  else if interval = "1d" then "1y"
  else "1y"

/-- A Yahoo Finance `history` result: its rows and the column names of
the returned table. -/
structure YahooResult where
  rows : List Row
  columns : List String
deriving DecidableEq, Repr

/-- `required_cols` of the Yahoo branch (app.py line 223). -/
def required_cols : List String := ["Open", "High", "Low", "Close"]

/-- `get_data(ticker, interval)` (app.py lines 180-237).  External
effects are parameters: `primary coin_id days` is the CoinGecko HTTP
response, `volDraws` the synthesized volumes, `secondary ticker period
interval` the Yahoo `history` result (`none` models a raised
exception), `now`/`mockDraws` feed the mock generator.  Tier order:
CoinGecko, then Yahoo (kept only when non-empty with all four OHLC
columns), then mock data with `is_live = False`. -/
def get_data (ticker : String) (interval : String)
    (primary : String → Nat → Option (List Candle)) (volDraws : Nat → ℚ)
    (secondary : String → String → String → Option YahooResult)
    (now : ℚ) (mockDraws : Nat → RowDraws) : List Row × Bool :=
  let fromPrimary : Option (List Row × Bool) :=
    match coingecko_map ticker with
    | some coin_id =>
      match get_coingecko_data (primary coin_id 365) volDraws with
      | (some data, is_live) => if data.isEmpty then none else some (data, is_live)
      | (none, _) => none
    | none => none
  match fromPrimary with
  | some result => result
  | none =>
    let fromSecondary : Option (List Row × Bool) :=
      match secondary ticker (period_map interval) interval with
      | some data =>
        if data.rows.isEmpty then none
        else if required_cols.all data.columns.contains then some (data.rows, true)
        else none
      | none => none
    match fromSecondary with
    | some result => result
    | none => (generate_mock_data ticker (period_map interval) interval now mockDraws, false)

/-- The condition under which the CoinGecko tier supplies the series in
`get_data` (app.py lines 205-208): the ticker is mapped, the provider
call yielded a DataFrame, and it is non-empty. -/
def primarySupplies (ticker : String)
    (primary : String → Nat → Option (List Candle)) (volDraws : Nat → ℚ) : Bool :=
  match coingecko_map ticker with
  | some coin_id =>
    match (get_coingecko_data (primary coin_id 365) volDraws).1 with
    | some data => !data.isEmpty
    | none => false
  | none => false

/-- The condition under which the Yahoo tier supplies the series in
`get_data` (app.py lines 219-225): the call did not raise, the result is
non-empty and has all four OHLC columns. -/
def secondarySupplies (ticker : String) (interval : String)
    (secondary : String → String → String → Option YahooResult) : Bool :=
  match secondary ticker (period_map interval) interval with
  | some data => !data.rows.isEmpty && required_cols.all data.columns.contains
  | none => false

/-- The tail of `get_data` once the CoinGecko tier has failed: the Yahoo
branch followed by the mock fallback (app.py lines 210-237), written as
one match for use in proofs. -/
def yahooStep (ticker : String) (interval : String)
    (secondary : String → String → String → Option YahooResult)
    (now : ℚ) (mockDraws : Nat → RowDraws) : List Row × Bool :=
  match secondary ticker (period_map interval) interval with
  | some data =>
    if data.rows.isEmpty then
      (generate_mock_data ticker (period_map interval) interval now mockDraws, false)
    else if required_cols.all data.columns.contains then (data.rows, true)
    else (generate_mock_data ticker (period_map interval) interval now mockDraws, false)
  | none => (generate_mock_data ticker (period_map interval) interval now mockDraws, false)

/-- The fold computing `series.max()` over one column of a non-empty
frame; returns 0 on an empty frame (pandas would return NaN, but every
use site is guarded by non-emptiness). -/
def colMax (f : Row → ℚ) : List Row → ℚ
  | [] => 0
  | r :: rs => rs.foldl (fun acc x => max acc (f x)) (f r)

/-- The fold computing `series.min()` over one column, dually. -/
def colMin (f : Row → ℚ) : List Row → ℚ
  | [] => 0
  | r :: rs => rs.foldl (fun acc x => min acc (f x)) (f r)

/-- pandas `DataFrame.tail(n)`: the last n rows (all rows when the frame
is shorter). -/
def dfTail (n : Nat) (data : List Row) : List Row :=
  data.drop (data.length - n)

/-- The KPI values derived in `display_kpi_metrics` (app.py
lines 343-395; rendering is out of scope). -/
structure Metrics where
  current_price : ℚ
  previous_price : ℚ
  price_change : ℚ
  price_change_pct : ℚ
  high_24h : ℚ
  low_24h : ℚ
deriving DecidableEq, Repr

/-- The metric derivation of `display_kpi_metrics` (app.py
lines 352-358): `iloc[-1]`, `iloc[-2]` guarded by `len(data) > 1`,
percentage change guarded against a zero previous price, and the
24-row high/low guarded by `len(data) >= 24`. -/
def display_kpi_metrics (data : List Row) : Metrics :=
  let current_price := ((data.getLast?).map Row.Close).getD 0
  let previous_price :=
    if 1 < data.length then ((data.dropLast.getLast?).map Row.Close).getD 0
    else current_price
  let price_change := current_price - previous_price
  let price_change_pct :=
    if previous_price ≠ 0 then price_change / previous_price * 100 else 0
  let high_24h :=
    if 24 ≤ data.length then colMax Row.High (dfTail 24 data)
    else colMax Row.High data
  let low_24h :=
    if 24 ≤ data.length then colMin Row.Low (dfTail 24 data)
    else colMin Row.Low data
  { current_price := current_price
    previous_price := previous_price
    price_change := price_change
    price_change_pct := price_change_pct
    high_24h := high_24h
    low_24h := low_24h }

/-- The canned headline pool of `get_sentiment` (app.py lines 250-259). -/
def mock_headlines : List String :=
  [ "Bitcoin rallies as institutional investors show strong interest"
  , "Ethereum network upgrade improves transaction efficiency significantly"
  , "Solana addresses scalability concerns with latest protocol update"
  , "Cryptocurrency market shows signs of recovery and stability"
  , "New regulatory framework could boost crypto adoption"
  , "Market volatility raises concerns among traders"
  , "Technical analysis indicates potential breakout patterns"
  , "Experts remain optimistic about long-term crypto potential" ]

/-- The result of `get_sentiment` (app.py lines 284-296). -/
structure SentimentResult where
  score : ℚ
  label : String
  headlines : List String
deriving DecidableEq, Repr

/-- `get_sentiment` (app.py lines 241-296).  `ok = false` models the
`except` branch (any internal failure), which returns the fixed neutral
result.  The random sample and the TextBlob polarity function are
parameters; the polarity of each sampled headline is averaged, rescaled
by `((avg + 1) / 2) * 100` and labelled by the 60/40 thresholds. -/
def get_sentiment (ok : Bool) (sample : List String) (pol : String → ℚ) :
    SentimentResult :=
  if ok then
    let sentiment_scores := sample.map pol
    let avg_sentiment := sentiment_scores.sum / (sentiment_scores.length : ℚ)
    let sentiment_percentage := ((avg_sentiment + 1) / 2) * 100
    let sentiment_label :=
      if 60 ≤ sentiment_percentage then "🟢 BULLISH"
      else if 40 ≤ sentiment_percentage then "🟡 NEUTRAL"
      else "🔴 BEARISH"
    { score := sentiment_percentage, label := sentiment_label, headlines := sample }
  else
    { score := 50, label := "🟡 NEUTRAL", headlines := [] }

/-- A flat row with all prices equal to `c`, used for concrete tests. -/
def rowC (c : ℚ) : Row :=
  { date := 0, Open := c, High := c, Low := c, Close := c, Volume := 0 }

/-- A primary provider whose every call raises (HTTP error / timeout). -/
def noPrimary : String → Nat → Option (List Candle) := fun _ _ => none

/-- Constant volume draws for concrete tests. -/
def zeroVol : Nat → ℚ := fun _ => 0

/-- In-range draws with zero drift, used for concrete tests. -/
def calmDraws : Nat → RowDraws :=
  fun _ => { ret := 0, uOpen := 1, uClose := 1, uHigh := 1, uLow := 99 / 100,
             uVol := 2000000000 }

/-- Draws whose normal component is -2 (about 67 standard deviations below
the mean, but inside the support of the normal distribution); the uniform
components are all in range. -/
def crashDraws : Nat → RowDraws :=
  fun _ => { ret := -2, uOpen := 1, uClose := 1, uHigh := 1, uLow := 99 / 100,
             uVol := 2000000000 }

/-- A secondary provider answering every query with a single-row table
that has all four OHLC columns. -/
def oneRowYahoo : String → String → String → Option YahooResult :=
  fun _ _ _ => some { rows := [rowC 1], columns := required_cols }

/-- A secondary provider answering every query with a two-row table
(closes 100 then 110) that has all four OHLC columns. -/
def twoRowYahoo : String → String → String → Option YahooResult :=
  fun _ _ _ => some { rows := [rowC 100, rowC 110], columns := required_cols }

/-- A secondary provider whose every call raises. -/
def noYahoo : String → String → String → Option YahooResult := fun _ _ _ => none

/-- A primary provider answering every query with two candles. -/
def twoCandlePrimary : String → Nat → Option (List Candle) :=
  fun _ _ => some
    [ { timestamp_ms := 1000, open_val := 10, high_val := 12, low_val := 9, close_val := 11 }
    , { timestamp_ms := 2000, open_val := 11, high_val := 13, low_val := 10, close_val := 12 } ]

section Lemmas

theorem parseCandles_length (volDraws : Nat → ℚ) (i : Nat) (l : List Candle) :
    (parseCandles volDraws i l).length = l.length := by
  induction l generalizing i with
  | nil => rfl
  | cons c cs ih => simp [parseCandles, ih]

theorem parseCandles_getElem? (volDraws : Nat → ℚ) (i j : Nat) (l : List Candle) :
    (parseCandles volDraws i l)[j]? =
      (l[j]?).map (fun c => parseRow c (volDraws (i + j))) := by
  induction l generalizing i j with
  | nil => simp [parseCandles]
  | cons c cs ih =>
    cases j with
    | zero => simp [parseCandles]
    | succ j =>
      have harith : i + 1 + j = i + (j + 1) := by omega
      simpa [parseCandles, harith] using ih (i + 1) j

theorem get_coingecko_fst_some (resp : Option (List Candle)) (volDraws : Nat → ℚ)
    (rows : List Row) (h : (get_coingecko_data resp volDraws).1 = some rows) :
    get_coingecko_data resp volDraws = (some rows, true) ∧ 2 ≤ rows.length := by
  cases resp with
  | none => simp [get_coingecko_data] at h
  | some data =>
    by_cases hc : data.isEmpty || data.length < 2
    · simp [get_coingecko_data, hc] at h
    · have hlen : 2 ≤ data.length := by
        simp only [Bool.or_eq_true, decide_eq_true_eq, List.isEmpty_iff] at hc
        push_neg at hc
        omega
      have hrows : parseCandles volDraws 0 data = rows := by
        simpa [get_coingecko_data, hc] using h
      constructor
      · simp [get_coingecko_data, hc, hrows]
      · rw [← hrows, parseCandles_length]
        exact hlen

theorem get_data_primary_case (ticker interval : String)
    (primary : String → Nat → Option (List Candle)) (volDraws : Nat → ℚ)
    (secondary : String → String → String → Option YahooResult)
    (now : ℚ) (mockDraws : Nat → RowDraws)
    (h : primarySupplies ticker primary volDraws = true) :
    ∃ rows, 2 ≤ rows.length ∧
      get_data ticker interval primary volDraws secondary now mockDraws = (rows, true) := by
  simp only [primarySupplies] at h
  cases hmap : coingecko_map ticker with
  | none => simp [hmap] at h
  | some cid =>
    simp only [hmap] at h
    cases hcg : (get_coingecko_data (primary cid 365) volDraws).1 with
    | none => simp [hcg] at h
    | some rows =>
      obtain ⟨hpair, hlen⟩ := get_coingecko_fst_some _ _ _ hcg
      refine ⟨rows, hlen, ?_⟩
      have hne : rows.isEmpty = false := by
        cases rows with
        | nil => simp at hlen
        | cons a l => rfl
      simp only [get_data, hmap, hpair]
      simp [hne]

theorem get_data_of_primary_false (ticker interval : String)
    (primary : String → Nat → Option (List Candle)) (volDraws : Nat → ℚ)
    (secondary : String → String → String → Option YahooResult)
    (now : ℚ) (mockDraws : Nat → RowDraws)
    (hp : primarySupplies ticker primary volDraws = false) :
    get_data ticker interval primary volDraws secondary now mockDraws =
      yahooStep ticker interval secondary now mockDraws := by
  simp only [primarySupplies] at hp
  simp only [get_data, yahooStep]
  cases hmap : coingecko_map ticker with
  | none =>
    simp only [hmap]
    cases hy : secondary ticker (period_map interval) interval with
    | none => simp
    | some res =>
      by_cases h1 : res.rows.isEmpty <;>
        by_cases h2 : required_cols.all res.columns.contains <;> simp [h1, h2]
  | some cid =>
    simp only [hmap] at hp ⊢
    cases hcg : get_coingecko_data (primary cid 365) volDraws with
    | mk o b =>
      cases o with
      | none =>
        simp only [hcg]
        cases hy : secondary ticker (period_map interval) interval with
        | none => simp
        | some res =>
          by_cases h1 : res.rows.isEmpty <;>
            by_cases h2 : required_cols.all res.columns.contains <;> simp [h1, h2]
      | some data =>
        simp only [hcg] at hp ⊢
        simp at hp
        cases hy : secondary ticker (period_map interval) interval with
        | none => simp [hp]
        | some res =>
          by_cases h1 : res.rows.isEmpty <;>
            by_cases h2 : required_cols.all res.columns.contains <;> simp [hp, h1, h2]

theorem get_data_secondary_case (ticker interval : String)
    (primary : String → Nat → Option (List Candle)) (volDraws : Nat → ℚ)
    (secondary : String → String → String → Option YahooResult)
    (now : ℚ) (mockDraws : Nat → RowDraws)
    (hp : primarySupplies ticker primary volDraws = false)
    (res : YahooResult)
    (hs : secondary ticker (period_map interval) interval = some res)
    (hne : res.rows.isEmpty = false)
    (hcols : required_cols.all res.columns.contains = true) :
    get_data ticker interval primary volDraws secondary now mockDraws = (res.rows, true) := by
  rw [get_data_of_primary_false ticker interval primary volDraws secondary now mockDraws hp]
  simp [yahooStep, hs, hne, hcols]

theorem get_data_mock_case (ticker interval : String)
    (primary : String → Nat → Option (List Candle)) (volDraws : Nat → ℚ)
    (secondary : String → String → String → Option YahooResult)
    (now : ℚ) (mockDraws : Nat → RowDraws)
    (hp : primarySupplies ticker primary volDraws = false)
    (hs : secondarySupplies ticker interval secondary = false) :
    get_data ticker interval primary volDraws secondary now mockDraws =
      (generate_mock_data ticker (period_map interval) interval now mockDraws, false) := by
  rw [get_data_of_primary_false ticker interval primary volDraws secondary now mockDraws hp]
  simp only [secondarySupplies] at hs
  simp only [yahooStep]
  cases hy : secondary ticker (period_map interval) interval with
  | none => rfl
  | some res =>
    simp only [hy] at hs
    rcases Bool.and_eq_false_iff.mp hs with h1 | h2
    · have hbe : res.rows.isEmpty = true := by
        cases hb : res.rows.isEmpty
        · rw [hb] at h1; simp at h1
        · rfl
      simp [hbe]
    · simp [h2]

theorem secondarySupplies_spec (ticker interval : String)
    (secondary : String → String → String → Option YahooResult)
    (h : secondarySupplies ticker interval secondary = true) :
    ∃ res, secondary ticker (period_map interval) interval = some res ∧
      res.rows.isEmpty = false ∧ required_cols.all res.columns.contains = true := by
  unfold secondarySupplies at h
  cases hy : secondary ticker (period_map interval) interval with
  | none => rw [hy] at h; simp at h
  | some res =>
    rw [hy] at h
    rcases Bool.and_eq_true_iff.mp h with ⟨h1, h2⟩
    refine ⟨res, rfl, ?_, h2⟩
    cases hb : res.rows.isEmpty
    · rfl
    · rw [hb] at h1; simp at h1

theorem generate_mock_data_length (ticker period interval : String) (now : ℚ)
    (draws : Nat → RowDraws) :
    (generate_mock_data ticker period interval now draws).length = numPeriods interval := by
  simp [generate_mock_data]

theorem two_le_numPeriods (interval : String) : 2 ≤ numPeriods interval := by
  unfold numPeriods
  split
  · omega
  · split
    · omega
    · split <;> omega

end Lemmas

section FetchClaims

/-- C1 counterexample: a secondary provider answering with a single-row
table that has all four OHLC columns passes the Yahoo branch of
`get_data` unchanged, so the returned series has length 1, refuting
"the returned series has length >= 2 regardless of which tier supplied
the data". -/
theorem get_data_length_ge_two_cx :
    ¬ 2 ≤ (get_data "BTC-USD" "1d" noPrimary zeroVol oneRowYahoo 0 calmDraws).1.length := by
  rw [get_data_secondary_case "BTC-USD" "1d" noPrimary zeroVol oneRowYahoo 0 calmDraws
    rfl { rows := [rowC 1], columns := required_cols } rfl rfl rfl]
  decide

/-- C1 (amended): for every asset/interval pair and every behaviour of
the external providers, `get_data` returns (it is total) a series and a
boolean flag; the series always has length >= 1, and it has length >= 2
provided the secondary provider never answers with a table of fewer
than two rows (the primary and synthetic tiers guarantee length >= 2 on
their own). -/
theorem get_data_total_and_length (ticker interval : String)
    (primary : String → Nat → Option (List Candle)) (volDraws : Nat → ℚ)
    (secondary : String → String → String → Option YahooResult)
    (now : ℚ) (mockDraws : Nat → RowDraws) :
    1 ≤ (get_data ticker interval primary volDraws secondary now mockDraws).1.length ∧
    ((∀ t p i res, secondary t p i = some res → 2 ≤ res.rows.length) →
      2 ≤ (get_data ticker interval primary volDraws secondary now mockDraws).1.length) := by
  cases hps : primarySupplies ticker primary volDraws with
  | true =>
    obtain ⟨rows, hlen, heq⟩ :=
      get_data_primary_case ticker interval primary volDraws secondary now mockDraws hps
    rw [heq]
    exact ⟨le_trans one_le_two hlen, fun _ => hlen⟩
  | false =>
    cases hss : secondarySupplies ticker interval secondary with
    | true =>
      obtain ⟨res, hs, hne, hcols⟩ := secondarySupplies_spec ticker interval secondary hss
      rw [get_data_secondary_case ticker interval primary volDraws secondary now mockDraws
        hps res hs hne hcols]
      have hpos : res.rows ≠ [] := by
        intro he; rw [he] at hne; simp at hne
      exact ⟨List.length_pos.mpr hpos, fun hbig => hbig ticker (period_map interval) interval res hs⟩
    | false =>
      rw [get_data_mock_case ticker interval primary volDraws secondary now mockDraws hps hss]
      simp only [generate_mock_data_length]
      exact ⟨le_trans (by omega) (two_le_numPeriods interval), fun _ => two_le_numPeriods interval⟩

/-- C1 witness: with the primary raising and a two-row secondary table,
the amended theorem applies and yields a series of length at least 2. -/
theorem get_data_total_and_length_witness :
    2 ≤ (get_data "BTC-USD" "1d" noPrimary zeroVol twoRowYahoo 0 calmDraws).1.length :=
  (get_data_total_and_length "BTC-USD" "1d" noPrimary zeroVol twoRowYahoo 0 calmDraws).2
    (by
      intro t p i res h
      have he : ({ rows := [rowC 100, rowC 110], columns := required_cols } : YahooResult)
          = res := by simpa [twoRowYahoo] using h
      rw [← he]
      decide)

/-- C2 counterexample: the primary provider fails and the secondary
supplies a valid two-row OHLC table; `get_data` reports `is_live =
true` (app.py line 225), refuting "is_live is false whenever any tier
below the primary supplied the series, including the secondary". -/
theorem is_live_secondary_cx :
    (get_data "BTC-USD" "1d" noPrimary zeroVol twoRowYahoo 0 calmDraws).2 = true := by
  rw [get_data_secondary_case "BTC-USD" "1d" noPrimary zeroVol twoRowYahoo 0 calmDraws
    rfl { rows := [rowC 100, rowC 110], columns := required_cols } rfl rfl rfl]

/-- C2 (amended): the `is_live` flag returned by `get_data` is false
exactly when neither the primary nor the secondary tier supplied the
series — that is, exactly when the synthetic generator did, in which
case the returned series is the generator's output.  A series supplied
by the secondary (Yahoo) tier is reported with `is_live = true`. -/
theorem is_live_false_iff_synthetic (ticker interval : String)
    (primary : String → Nat → Option (List Candle)) (volDraws : Nat → ℚ)
    (secondary : String → String → String → Option YahooResult)
    (now : ℚ) (mockDraws : Nat → RowDraws) :
    ((get_data ticker interval primary volDraws secondary now mockDraws).2 = false ↔
      primarySupplies ticker primary volDraws = false ∧
      secondarySupplies ticker interval secondary = false) ∧
    ((get_data ticker interval primary volDraws secondary now mockDraws).2 = false →
      (get_data ticker interval primary volDraws secondary now mockDraws).1 =
        generate_mock_data ticker (period_map interval) interval now mockDraws) := by
  cases hps : primarySupplies ticker primary volDraws with
  | true =>
    obtain ⟨rows, hlen, heq⟩ :=
      get_data_primary_case ticker interval primary volDraws secondary now mockDraws hps
    rw [heq]
    simp
  | false =>
    cases hss : secondarySupplies ticker interval secondary with
    | true =>
      obtain ⟨res, hs, hne, hcols⟩ := secondarySupplies_spec ticker interval secondary hss
      rw [get_data_secondary_case ticker interval primary volDraws secondary now mockDraws
        hps res hs hne hcols]
      simp
    | false =>
      rw [get_data_mock_case ticker interval primary volDraws secondary now mockDraws hps hss]
      simp

/-- C2 witness: with both providers failing, the amended theorem applies
and the flag is indeed false with the synthetic series returned. -/
theorem is_live_false_iff_synthetic_witness :
    (get_data "BTC-USD" "1d" noPrimary zeroVol noYahoo 0 calmDraws).2 = false :=
  ((is_live_false_iff_synthetic "BTC-USD" "1d" noPrimary zeroVol noYahoo 0 calmDraws).1).mpr
    ⟨rfl, rfl⟩

/-- C3: if the primary tier does not supply the series and the secondary
provider succeeds with a non-empty table containing the Open, High, Low
and Close columns, then `get_data` returns exactly that table together
with `is_live = true`. -/
theorem secondary_success_spec (ticker interval : String)
    (primary : String → Nat → Option (List Candle)) (volDraws : Nat → ℚ)
    (secondary : String → String → String → Option YahooResult)
    (now : ℚ) (mockDraws : Nat → RowDraws) (res : YahooResult)
    (hp : primarySupplies ticker primary volDraws = false)
    (hs : secondary ticker (period_map interval) interval = some res)
    (hne : res.rows ≠ [])
    (hO : "Open" ∈ res.columns) (hH : "High" ∈ res.columns)
    (hL : "Low" ∈ res.columns) (hC : "Close" ∈ res.columns) :
    get_data ticker interval primary volDraws secondary now mockDraws = (res.rows, true) := by
  apply get_data_secondary_case ticker interval primary volDraws secondary now mockDraws hp res hs
  · cases hr : res.rows with
    | nil => exact absurd hr hne
    | cons a l => rfl
  · simp [required_cols, List.all_eq_true, hO, hH, hL, hC]

/-- C3 witness: the theorem applied to the failing primary and the
two-row secondary table. -/
theorem secondary_success_spec_witness :
    get_data "BTC-USD" "1d" noPrimary zeroVol twoRowYahoo 0 calmDraws =
      ([rowC 100, rowC 110], true) :=
  secondary_success_spec "BTC-USD" "1d" noPrimary zeroVol twoRowYahoo 0 calmDraws
    { rows := [rowC 100, rowC 110], columns := required_cols }
    rfl rfl (by decide) (by decide) (by decide) (by decide) (by decide)

/-- C4: when neither provider supplies data, `get_data` returns
`is_live = false` and the synthetic series, whose length follows the
static interval table: 365 for "1d", 1440 for "1h", 2016 for "5m" and
10080 otherwise. -/
theorem both_fail_mock_spec (ticker interval : String)
    (primary : String → Nat → Option (List Candle)) (volDraws : Nat → ℚ)
    (secondary : String → String → String → Option YahooResult)
    (now : ℚ) (mockDraws : Nat → RowDraws)
    (hp : primarySupplies ticker primary volDraws = false)
    (hs : secondarySupplies ticker interval secondary = false) :
    (get_data ticker interval primary volDraws secondary now mockDraws).2 = false ∧
    (get_data ticker interval primary volDraws secondary now mockDraws).1.length =
      (if interval = "1d" then 365 else if interval = "1h" then 1440
       else if interval = "5m" then 2016 else 10080) := by
  rw [get_data_mock_case ticker interval primary volDraws secondary now mockDraws hp hs]
  refine ⟨rfl, ?_⟩
  simp only [generate_mock_data_length]
  unfold numPeriods
  split
  · rfl
  · split
    · norm_num
    · split <;> norm_num

/-- C4 witness: both providers raising on a "1d" request yields the
365-row synthetic series with the flag down. -/
theorem both_fail_mock_spec_witness :
    (get_data "BTC-USD" "1d" noPrimary zeroVol noYahoo 0 calmDraws).2 = false ∧
    (get_data "BTC-USD" "1d" noPrimary zeroVol noYahoo 0 calmDraws).1.length =
      (if "1d" = "1d" then 365 else if "1d" = "1h" then 1440
       else if "1d" = "5m" then 2016 else 10080) :=
  both_fail_mock_spec "BTC-USD" "1d" noPrimary zeroVol noYahoo 0 calmDraws rfl rfl

/-- C5: `get_coingecko_data` returns the failure pair `(None, False)`
exactly when the HTTP layer raised (error or 10s timeout, modelled by
`resp = none`) or the JSON array is empty or shorter than 2; in every
other case it returns `True` together with the parsed series, which has
one row per candle, each row carrying the candle's timestamp divided by
1000, its four OHLC fields, and the synthesized volume draw. -/
theorem get_coingecko_data_spec (resp : Option (List Candle)) (volDraws : Nat → ℚ) :
    (get_coingecko_data resp volDraws = (none, false) ↔
      resp = none ∨ ∃ l, resp = some l ∧ l.length < 2) ∧
    (∀ l, resp = some l → 2 ≤ l.length →
      ∃ rows, get_coingecko_data resp volDraws = (some rows, true) ∧
        rows.length = l.length ∧
        ∀ j : Nat, rows[j]? = (l[j]?).map (fun c => parseRow c (volDraws j))) := by
  constructor
  · cases resp with
    | none => simp [get_coingecko_data]
    | some l =>
      by_cases hc : l.isEmpty || l.length < 2
      · have hlen : l.length < 2 := by
          rcases Bool.or_eq_true_iff.mp hc with h1 | h2
          · have he : l = [] := List.isEmpty_iff.mp h1
            rw [he]; simp
          · exact of_decide_eq_true h2
        simp [get_coingecko_data, hc, hlen]
      · have hlen : ¬ l.length < 2 := by
          intro hlt
          exact hc (Bool.or_eq_true_iff.mpr (Or.inr (decide_eq_true hlt)))
        have hne : l ≠ [] := by
          intro he
          rw [he] at hlen
          exact hlen (by simp)
        simp [get_coingecko_data, hc, hlen, hne]
  · intro l hl h2
    subst hl
    have hc : (l.isEmpty || decide (l.length < 2)) = false := by
      have hne : l ≠ [] := by
        intro he; rw [he] at h2; simp at h2
      simp [List.isEmpty_iff, hne]
      omega
    refine ⟨parseCandles volDraws 0 l, ?_, parseCandles_length _ _ _, ?_⟩
    · simp [get_coingecko_data, hc]
    · intro j
      simpa using parseCandles_getElem? volDraws 0 j l

/-- C5 witness: a two-candle payload parses into a two-row live series
whose first row is the first candle's fields. -/
theorem get_coingecko_data_spec_witness :
    ∃ rows, get_coingecko_data (twoCandlePrimary "bitcoin" 365) zeroVol = (some rows, true) ∧
      rows.length = 2 := by
  obtain ⟨rows, heq, hlen, -⟩ :=
    (get_coingecko_data_spec (twoCandlePrimary "bitcoin" 365) zeroVol).2
      [ { timestamp_ms := 1000, open_val := 10, high_val := 12, low_val := 9, close_val := 11 }
      , { timestamp_ms := 2000, open_val := 11, high_val := 13, low_val := 10, close_val := 12 } ]
      rfl (by decide)
  exact ⟨rows, heq, hlen.trans rfl⟩

end FetchClaims

section MetricsLemmas

theorem dropLast_getLast?_eq (l : List Row) (h2 : 2 ≤ l.length) :
    l.dropLast.getLast? = l[l.length - 2]? := by
  rw [List.getLast?_eq_getElem? l.dropLast, List.length_dropLast,
    List.getElem?_dropLast]
  have he : l.length - 1 - 1 = l.length - 2 := by omega
  rw [he]
  simp [show l.length - 2 < l.length - 1 by omega]

theorem le_foldl_max (f : Row → ℚ) (rs : List Row) (a : ℚ) :
    a ≤ rs.foldl (fun acc x => max acc (f x)) a := by
  induction rs generalizing a with
  | nil => exact le_refl a
  | cons r rs ih => exact le_trans (le_max_left a (f r)) (ih (max a (f r)))

theorem foldl_max_ub (f : Row → ℚ) (rs : List Row) (a : ℚ) :
    ∀ r ∈ rs, f r ≤ rs.foldl (fun acc x => max acc (f x)) a := by
  induction rs generalizing a with
  | nil => intro r hr; simp at hr
  | cons s rs ih =>
    intro r hr
    rcases List.mem_cons.mp hr with he | hm
    · subst he
      exact le_trans (le_max_right a (f r)) (le_foldl_max f rs _)
    · exact ih _ r hm

theorem foldl_max_mem (f : Row → ℚ) (rs : List Row) (a : ℚ) :
    rs.foldl (fun acc x => max acc (f x)) a = a ∨
      rs.foldl (fun acc x => max acc (f x)) a ∈ rs.map f := by
  induction rs generalizing a with
  | nil => left; rfl
  | cons s rs ih =>
    rw [List.foldl_cons]
    rcases ih (max a (f s)) with h | h
    · rcases max_choice a (f s) with hm | hm
      · left; rw [h, hm]
      · right; rw [h, hm]; simp
    · right
      simp only [List.map_cons, List.mem_cons]
      exact Or.inr h

theorem colMax_spec (f : Row → ℚ) (l : List Row) (h : l ≠ []) :
    colMax f l ∈ l.map f ∧ ∀ r ∈ l, f r ≤ colMax f l := by
  cases l with
  | nil => exact absurd rfl h
  | cons r rs =>
    constructor
    · rcases foldl_max_mem f rs (f r) with he | hm
      · simp [colMax, he]
      · simp only [colMax, List.map_cons, List.mem_cons]
        exact Or.inr hm
    · intro x hx
      rcases List.mem_cons.mp hx with he | hm
      · subst he
        exact le_foldl_max f rs (f x)
      · exact foldl_max_ub f rs (f r) x hm

theorem foldl_min_le (f : Row → ℚ) (rs : List Row) (a : ℚ) :
    rs.foldl (fun acc x => min acc (f x)) a ≤ a := by
  induction rs generalizing a with
  | nil => exact le_refl a
  | cons r rs ih => exact le_trans (ih (min a (f r))) (min_le_left a (f r))

theorem foldl_min_lb (f : Row → ℚ) (rs : List Row) (a : ℚ) :
    ∀ r ∈ rs, rs.foldl (fun acc x => min acc (f x)) a ≤ f r := by
  induction rs generalizing a with
  | nil => intro r hr; simp at hr
  | cons s rs ih =>
    intro r hr
    rcases List.mem_cons.mp hr with he | hm
    · subst he
      exact le_trans (foldl_min_le f rs _) (min_le_right a (f r))
    · exact ih _ r hm

theorem foldl_min_mem (f : Row → ℚ) (rs : List Row) (a : ℚ) :
    rs.foldl (fun acc x => min acc (f x)) a = a ∨
      rs.foldl (fun acc x => min acc (f x)) a ∈ rs.map f := by
  induction rs generalizing a with
  | nil => left; rfl
  | cons s rs ih =>
    rw [List.foldl_cons]
    rcases ih (min a (f s)) with h | h
    · rcases min_choice a (f s) with hm | hm
      · left; rw [h, hm]
      · right; rw [h, hm]; simp
    · right
      simp only [List.map_cons, List.mem_cons]
      exact Or.inr h

theorem colMin_spec (f : Row → ℚ) (l : List Row) (h : l ≠ []) :
    colMin f l ∈ l.map f ∧ ∀ r ∈ l, colMin f l ≤ f r := by
  cases l with
  | nil => exact absurd rfl h
  | cons r rs =>
    constructor
    · rcases foldl_min_mem f rs (f r) with he | hm
      · simp [colMin, he]
      · simp only [colMin, List.map_cons, List.mem_cons]
        exact Or.inr hm
    · intro x hx
      rcases List.mem_cons.mp hx with he | hm
      · subst he
        exact foldl_min_le f rs (f x)
      · exact foldl_min_lb f rs (f r) x hm

end MetricsLemmas

section MetricsClaims

/-- C6: the metric derivation takes the current price from the last
row's Close, the previous price from the second-to-last row's Close
(falling back to the current price on a one-row series), and the
percentage change as (current - previous)/previous * 100 with 0 when
the previous price is 0; in particular a close series [100, 110] yields
10 and a one-row series yields 0. -/
theorem kpi_change_spec (data : List Row) (h : data ≠ []) :
    (some (display_kpi_metrics data).current_price =
      (data[data.length - 1]?).map Row.Close) ∧
    (2 ≤ data.length →
      some (display_kpi_metrics data).previous_price =
        (data[data.length - 2]?).map Row.Close) ∧
    (data.length = 1 →
      (display_kpi_metrics data).previous_price =
        (display_kpi_metrics data).current_price) ∧
    ((display_kpi_metrics data).price_change_pct =
      if (display_kpi_metrics data).previous_price = 0 then 0
      else ((display_kpi_metrics data).current_price -
            (display_kpi_metrics data).previous_price) /
           (display_kpi_metrics data).previous_price * 100) ∧
    (display_kpi_metrics [rowC 100, rowC 110]).price_change_pct = 10 ∧
    (display_kpi_metrics [rowC 100]).price_change_pct = 0 := by
  have hcur : (display_kpi_metrics data).current_price =
      ((data.getLast?).map Row.Close).getD 0 := rfl
  have hprev : (display_kpi_metrics data).previous_price =
      (if 1 < data.length then ((data.dropLast.getLast?).map Row.Close).getD 0
       else ((data.getLast?).map Row.Close).getD 0) := rfl
  have hpct : (display_kpi_metrics data).price_change_pct =
      (if (display_kpi_metrics data).previous_price ≠ 0 then
        ((display_kpi_metrics data).current_price -
          (display_kpi_metrics data).previous_price) /
        (display_kpi_metrics data).previous_price * 100
       else 0) := rfl
  have hpos : 0 < data.length := List.length_pos.mpr h
  have h1 : data.length - 1 < data.length := by omega
  have hx1 : data[data.length - 1]? = some (data.get ⟨data.length - 1, h1⟩) :=
    List.getElem?_eq_getElem h1
  refine ⟨?_, ?_, ?_, ?_, ?_, ?_⟩
  · rw [hcur, List.getLast?_eq_getElem? data, hx1]
    rfl
  · intro h2
    have hlt : 1 < data.length := by omega
    have h2' : data.length - 2 < data.length := by omega
    have hx2 : data[data.length - 2]? = some (data.get ⟨data.length - 2, h2'⟩) :=
      List.getElem?_eq_getElem h2'
    rw [hprev, if_pos hlt, dropLast_getLast?_eq data h2, hx2]
    rfl
  · intro hone
    rw [hprev, if_neg (by omega), hcur]
  · by_cases hz : (display_kpi_metrics data).previous_price = 0
    · rw [if_pos hz, hpct, if_neg (fun hne => hne hz)]
    · rw [if_neg hz, hpct, if_pos hz]
  · norm_num [display_kpi_metrics, rowC]
  · norm_num [display_kpi_metrics, rowC]

/-- C6 witness: the theorem applied to the two-row series with closes
100 then 110 yields the 10 percent change. -/
theorem kpi_change_spec_witness :
    (display_kpi_metrics [rowC 100, rowC 110]).price_change_pct = 10 :=
  (kpi_change_spec [rowC 100, rowC 110] (by decide)).2.2.2.2.1

/-- C7: the 24-period high (resp. low) computed by the KPI derivation is
the maximum of the High column (resp. minimum of the Low column) over
the last 24 rows when the series has at least 24 rows, and over the
whole series otherwise: it is attained by some row of that window and
bounds every row of it. -/
theorem kpi_highlow_spec (data : List Row) (h : data ≠ []) :
    ((display_kpi_metrics data).high_24h ∈
        (if 24 ≤ data.length then data.drop (data.length - 24) else data).map Row.High ∧
      ∀ r ∈ (if 24 ≤ data.length then data.drop (data.length - 24) else data),
        r.High ≤ (display_kpi_metrics data).high_24h) ∧
    ((display_kpi_metrics data).low_24h ∈
        (if 24 ≤ data.length then data.drop (data.length - 24) else data).map Row.Low ∧
      ∀ r ∈ (if 24 ≤ data.length then data.drop (data.length - 24) else data),
        (display_kpi_metrics data).low_24h ≤ r.Low) := by
  have hh : (display_kpi_metrics data).high_24h =
      (if 24 ≤ data.length then colMax Row.High (dfTail 24 data)
       else colMax Row.High data) := rfl
  have hl : (display_kpi_metrics data).low_24h =
      (if 24 ≤ data.length then colMin Row.Low (dfTail 24 data)
       else colMin Row.Low data) := rfl
  by_cases h24 : 24 ≤ data.length
  · have hwlen : (data.drop (data.length - 24)).length = 24 := by
      rw [List.length_drop]
      omega
    have hwne : data.drop (data.length - 24) ≠ [] := by
      apply List.length_pos.mp
      omega
    rw [hh, hl]
    simp only [if_pos h24]
    exact ⟨colMax_spec Row.High (dfTail 24 data) hwne,
           colMin_spec Row.Low (dfTail 24 data) hwne⟩
  · rw [hh, hl]
    simp only [if_neg h24]
    exact ⟨colMax_spec Row.High data h, colMin_spec Row.Low data h⟩

/-- C7 witness: on a two-row series (shorter than 24) the 24-period high
is attained in the whole series. -/
theorem kpi_highlow_spec_witness :
    (display_kpi_metrics [rowC 100, rowC 110]).high_24h ∈
      (if 24 ≤ ([rowC 100, rowC 110] : List Row).length then
        ([rowC 100, rowC 110] : List Row).drop (([rowC 100, rowC 110] : List Row).length - 24)
       else [rowC 100, rowC 110]).map Row.High :=
  (kpi_highlow_spec [rowC 100, rowC 110] (by decide)).1.1

end MetricsClaims

section SentimentLemmas

theorem sum_le_length (l : List ℚ) (h : ∀ x ∈ l, x ≤ 1) :
    l.sum ≤ (l.length : ℚ) := by
  induction l with
  | nil => simp
  | cons a l ih =>
    have ha := h a (List.mem_cons_self a l)
    have hl := ih (fun x hx => h x (List.mem_cons_of_mem a hx))
    simp only [List.sum_cons, List.length_cons]
    push_cast
    linarith

theorem neg_length_le_sum (l : List ℚ) (h : ∀ x ∈ l, -1 ≤ x) :
    -(l.length : ℚ) ≤ l.sum := by
  induction l with
  | nil => simp
  | cons a l ih =>
    have ha := h a (List.mem_cons_self a l)
    have hl := ih (fun x hx => h x (List.mem_cons_of_mem a hx))
    simp only [List.sum_cons, List.length_cons]
    push_cast
    linarith

theorem sentiment_label_iff (x : ℚ) :
    ((if 60 ≤ x then "🟢 BULLISH" else if 40 ≤ x then "🟡 NEUTRAL"
      else "🔴 BEARISH") = "🟢 BULLISH" ↔ 60 ≤ x) ∧
    ((if 60 ≤ x then "🟢 BULLISH" else if 40 ≤ x then "🟡 NEUTRAL"
      else "🔴 BEARISH") = "🟡 NEUTRAL" ↔ 40 ≤ x ∧ x < 60) ∧
    ((if 60 ≤ x then "🟢 BULLISH" else if 40 ≤ x then "🟡 NEUTRAL"
      else "🔴 BEARISH") = "🔴 BEARISH" ↔ x < 40) := by
  by_cases h60 : (60 : ℚ) ≤ x
  · rw [if_pos h60]
    refine ⟨⟨fun _ => h60, fun _ => rfl⟩, ?_, ?_⟩
    · constructor
      · intro hab; exact absurd hab (by decide)
      · rintro ⟨-, hlt⟩; exact absurd h60 (by linarith)
    · constructor
      · intro hab; exact absurd hab (by decide)
      · intro hlt; exact absurd h60 (by linarith)
  · rw [if_neg h60]
    have hlt60 : x < 60 := not_le.mp h60
    by_cases h40 : (40 : ℚ) ≤ x
    · rw [if_pos h40]
      refine ⟨?_, ⟨fun _ => ⟨h40, hlt60⟩, fun _ => rfl⟩, ?_⟩
      · constructor
        · intro hab; exact absurd hab (by decide)
        · intro hge; exact absurd hge h60
      · constructor
        · intro hab; exact absurd hab (by decide)
        · intro hlt; exact absurd h40 (by linarith)
    · rw [if_neg h40]
      have hlt40 : x < 40 := not_le.mp h40
      refine ⟨?_, ?_, ⟨fun _ => hlt40, fun _ => rfl⟩⟩
      · constructor
        · intro hab; exact absurd hab (by decide)
        · intro hge; exact absurd hge h60
      · constructor
        · intro hab; exact absurd hab (by decide)
        · rintro ⟨hge, -⟩; exact absurd hge h40

end SentimentLemmas

section SentimentClaims

/-- C8: whatever the polarity values (each in [-1, 1]) of the sampled
headlines (3 to 5 of the 8 canned ones) and also on the internal-failure
path (score 50, empty headline list), `get_sentiment` returns a score
in [0, 100] — on the success path equal to ((avg + 1) / 2) * 100 for
the average polarity — and a label matching the thresholds: BULLISH iff
score >= 60, NEUTRAL iff 40 <= score < 60, BEARISH iff score < 40. -/
theorem get_sentiment_spec (ok : Bool) (sample : List String) (pol : String → ℚ)
    (hpol : ∀ s, -1 ≤ pol s ∧ pol s ≤ 1)
    (hsub : ∀ s ∈ sample, s ∈ mock_headlines)
    (hk : 3 ≤ sample.length ∧ sample.length ≤ 5) :
    (0 ≤ (get_sentiment ok sample pol).score ∧
      (get_sentiment ok sample pol).score ≤ 100) ∧
    ((get_sentiment ok sample pol).label = "🟢 BULLISH" ↔
      60 ≤ (get_sentiment ok sample pol).score) ∧
    ((get_sentiment ok sample pol).label = "🟡 NEUTRAL" ↔
      40 ≤ (get_sentiment ok sample pol).score ∧
      (get_sentiment ok sample pol).score < 60) ∧
    ((get_sentiment ok sample pol).label = "🔴 BEARISH" ↔
      (get_sentiment ok sample pol).score < 40) ∧
    (ok = true → (get_sentiment ok sample pol).score =
      (((sample.map pol).sum / ((sample.map pol).length : ℚ) + 1) / 2) * 100) ∧
    (ok = false → (get_sentiment ok sample pol).score = 50 ∧
      (get_sentiment ok sample pol).headlines = []) := by
  cases ok with
  | false =>
    have hs50 : (get_sentiment false sample pol).score = 50 := rfl
    have hlneu : (get_sentiment false sample pol).label = "🟡 NEUTRAL" := rfl
    have hhead : (get_sentiment false sample pol).headlines = [] := rfl
    rw [hs50, hlneu, hhead]
    refine ⟨⟨by norm_num, by norm_num⟩, ?_, ?_, ?_, by simp, fun _ => ⟨rfl, rfl⟩⟩
    · constructor
      · intro hab; exact absurd hab (by decide)
      · intro hge; norm_num at hge
    · constructor
      · intro _; exact ⟨by norm_num, by norm_num⟩
      · intro _; rfl
    · constructor
      · intro hab; exact absurd hab (by decide)
      · intro hlt; norm_num at hlt
  | true =>
    have hsc : (get_sentiment true sample pol).score =
        (((sample.map pol).sum / ((sample.map pol).length : ℚ) + 1) / 2) * 100 := rfl
    have hlab : (get_sentiment true sample pol).label =
        (if 60 ≤ (((sample.map pol).sum / ((sample.map pol).length : ℚ) + 1) / 2) * 100
         then "🟢 BULLISH"
         else if 40 ≤ (((sample.map pol).sum / ((sample.map pol).length : ℚ) + 1) / 2) * 100
         then "🟡 NEUTRAL" else "🔴 BEARISH") := rfl
    have hlenq : (0 : ℚ) < ((sample.map pol).length : ℚ) := by
      rw [List.length_map]
      exact_mod_cast (by omega : 0 < sample.length)
    have hub : (sample.map pol).sum ≤ ((sample.map pol).length : ℚ) := by
      apply sum_le_length
      intro x hx
      obtain ⟨s, -, rfl⟩ := List.mem_map.mp hx
      exact (hpol s).2
    have hlb : -(((sample.map pol).length : ℚ)) ≤ (sample.map pol).sum := by
      apply neg_length_le_sum
      intro x hx
      obtain ⟨s, -, rfl⟩ := List.mem_map.mp hx
      exact (hpol s).1
    have havg1 : (sample.map pol).sum / ((sample.map pol).length : ℚ) ≤ 1 :=
      (div_le_one hlenq).mpr hub
    have havg2 : -1 ≤ (sample.map pol).sum / ((sample.map pol).length : ℚ) := by
      rw [le_div_iff₀ hlenq]
      linarith
    obtain ⟨hiff1, hiff2, hiff3⟩ := sentiment_label_iff
      ((((sample.map pol).sum / ((sample.map pol).length : ℚ) + 1) / 2) * 100)
    refine ⟨⟨?_, ?_⟩, ?_, ?_, ?_, fun _ => hsc, by simp⟩
    · rw [hsc]; linarith
    · rw [hsc]; linarith
    · rw [hsc, hlab]; exact hiff1
    · rw [hsc, hlab]; exact hiff2
    · rw [hsc, hlab]; exact hiff3

/-- C8 witness: a uniform polarity of 1/2 on a three-headline sample
gives score 75 and hence, by the theorem, the BULLISH label. -/
theorem get_sentiment_spec_witness :
    (get_sentiment true
      [ "Bitcoin rallies as institutional investors show strong interest"
      , "Ethereum network upgrade improves transaction efficiency significantly"
      , "Solana addresses scalability concerns with latest protocol update" ]
      (fun _ => 1 / 2)).label = "🟢 BULLISH" :=
  ((get_sentiment_spec true
      [ "Bitcoin rallies as institutional investors show strong interest"
      , "Ethereum network upgrade improves transaction efficiency significantly"
      , "Solana addresses scalability concerns with latest protocol update" ]
      (fun _ => 1 / 2)
      (fun _ => by norm_num)
      (by decide)
      (by constructor <;> norm_num)).2.1).mpr
    (by norm_num [get_sentiment])

end SentimentClaims

section MockLemmas

theorem basePrices_pos (ticker : String) : 0 < basePrices ticker := by
  unfold basePrices
  split
  · norm_num
  · split
    · norm_num
    · split <;> norm_num

theorem mockPrice_pos (base : ℚ) (draws : Nat → RowDraws)
    (hbase : 0 < base) (hret : ∀ i, -1 < (draws i).ret) :
    ∀ i, 0 < mockPrice base draws i := by
  intro i
  induction i with
  | zero =>
    have h0 := hret 0
    exact mul_pos hbase (by linarith)
  | succ i ih =>
    have hs := hret (i + 1)
    exact mul_pos ih (by linarith)

theorem generate_mock_data_getElem? (ticker period interval : String) (now : ℚ)
    (draws : Nat → RowDraws) (i : Nat) (hi : i < numPeriods interval) :
    (generate_mock_data ticker period interval now draws)[i]? =
      some (mockRow now (basePrices ticker) draws (numPeriods interval) i) := by
  simp [generate_mock_data, List.getElem?_map, List.getElem?_range, hi]

end MockLemmas

section MockClaims

/-- C9 counterexample: a normal draw of -2 on the first step (a value
inside the support of the normal drift distribution, all uniform draws
being in range) turns the running price negative, so row 0 of the
generated series has Open = 42500 * (1 - 2) * 1 = -42500 < 0, refuting
"strictly positive Open, High, Low and Close prices in every row". -/
theorem mock_positive_prices_cx :
    ¬ (∀ r ∈ generate_mock_data "BTC-USD" "1y" "1d" 0 crashDraws, 0 < r.Open) := by
  intro hall
  have hi : 0 < numPeriods "1d" := by norm_num [numPeriods]
  have hget : (generate_mock_data "BTC-USD" "1y" "1d" 0 crashDraws)[0]? =
      some (mockRow 0 (basePrices "BTC-USD") crashDraws (numPeriods "1d") 0) :=
    generate_mock_data_getElem? "BTC-USD" "1y" "1d" 0 crashDraws 0 hi
  have hpos := hall _ (List.getElem?_mem hget)
  have hopen : (mockRow 0 (basePrices "BTC-USD") crashDraws (numPeriods "1d") 0).Open =
      basePrices "BTC-USD" * (1 + (-2)) * 1 := rfl
  have hbp : basePrices "BTC-USD" = 42500 := rfl
  rw [hopen, hbp] at hpos
  norm_num at hpos

/-- C9 (amended): for every asset id, period and interval, the synthetic
series has strictly increasing timestamps unconditionally; and its Open,
High, Low and Close are strictly positive in every row provided each
normal drift draw exceeds -1 (so no multiplicative step `1 + ret` is
zero or negative; the draws being normally distributed, this holds with
overwhelming probability but not always). -/
theorem mock_series_mono_pos (ticker period interval : String) (now : ℚ)
    (draws : Nat → RowDraws) :
    (∀ i j : Nat, ∀ ri rj : Row, i < j →
      (generate_mock_data ticker period interval now draws)[i]? = some ri →
      (generate_mock_data ticker period interval now draws)[j]? = some rj →
      ri.date < rj.date) ∧
    ((∀ i, (draws i).valid) → (∀ i, -1 < (draws i).ret) →
      ∀ r ∈ generate_mock_data ticker period interval now draws,
        0 < r.Open ∧ 0 < r.High ∧ 0 < r.Low ∧ 0 < r.Close) := by
  constructor
  · intro i j ri rj hij hgi hgj
    have hjlt : j < numPeriods interval := by
      obtain ⟨hlt, -⟩ := List.getElem?_eq_some.mp hgj
      rwa [generate_mock_data_length] at hlt
    have hilt : i < numPeriods interval := lt_trans hij hjlt
    have hri : ri = mockRow now (basePrices ticker) draws (numPeriods interval) i := by
      have := (generate_mock_data_getElem? ticker period interval now draws i hilt).symm.trans hgi
      exact (Option.some.inj this).symm
    have hrj : rj = mockRow now (basePrices ticker) draws (numPeriods interval) j := by
      have := (generate_mock_data_getElem? ticker period interval now draws j hjlt).symm.trans hgj
      exact (Option.some.inj this).symm
    rw [hri, hrj]
    show now - ((numPeriods interval - i : Nat) : ℚ) <
      now - ((numPeriods interval - j : Nat) : ℚ)
    apply sub_lt_sub_left
    exact_mod_cast (by omega : numPeriods interval - j < numPeriods interval - i)
  · intro hval hret r hr
    simp only [generate_mock_data, List.mem_map, List.mem_range] at hr
    obtain ⟨i, hi, rfl⟩ := hr
    have hp : 0 < mockPrice (basePrices ticker) draws i :=
      mockPrice_pos (basePrices ticker) draws (basePrices_pos ticker) hret i
    obtain ⟨ho1, -, hc1, -, hh1, -, hl1, -, -, -⟩ := hval i
    have hOpen : 0 < mockPrice (basePrices ticker) draws i * (draws i).uOpen :=
      mul_pos hp (lt_of_lt_of_le (by norm_num) ho1)
    have hClose : 0 < mockPrice (basePrices ticker) draws i * (draws i).uClose :=
      mul_pos hp (lt_of_lt_of_le (by norm_num) hc1)
    refine ⟨hOpen, ?_, ?_, hClose⟩
    · exact mul_pos (lt_max_iff.mpr (Or.inl hOpen)) (lt_of_lt_of_le one_pos hh1)
    · exact mul_pos (lt_min_iff.mpr ⟨hOpen, hClose⟩) (lt_of_lt_of_le (by norm_num) hl1)

/-- C9 witness: with in-range draws of zero drift, the first row of the
BTC series has positive Open by the theorem. -/
theorem mock_series_mono_pos_witness :
    0 < (mockRow 0 (basePrices "BTC-USD") calmDraws (numPeriods "1d") 0).Open :=
  ((mock_series_mono_pos "BTC-USD" "1y" "1d" 0 calmDraws).2
    (fun _ => by norm_num [calmDraws, RowDraws.valid])
    (fun _ => by norm_num [calmDraws])
    (mockRow 0 (basePrices "BTC-USD") calmDraws (numPeriods "1d") 0)
    (List.getElem?_mem (generate_mock_data_getElem? "BTC-USD" "1y" "1d" 0 calmDraws 0
      (by norm_num [numPeriods])))).1

/-- C10: every row of the synthetic series whose running price is
positive satisfies the OHLC invariant
Low ≤ min(Open, Close) ≤ max(Open, Close) ≤ High, because High scales
max(Open, Close) by a factor ≥ 1 and Low scales min(Open, Close) by a
factor ≤ 1 (the uniform draws being in their ranges). -/
theorem mock_ohlc_invariant (ticker period interval : String) (now : ℚ)
    (draws : Nat → RowDraws) (i : Nat)
    (hval : (draws i).valid)
    (hpos : 0 < mockPrice (basePrices ticker) draws i) :
    ∀ r, (generate_mock_data ticker period interval now draws)[i]? = some r →
      r.Low ≤ min r.Open r.Close ∧ min r.Open r.Close ≤ max r.Open r.Close ∧
      max r.Open r.Close ≤ r.High := by
  intro r hr
  have hilt : i < numPeriods interval := by
    obtain ⟨hlt, -⟩ := List.getElem?_eq_some.mp hr
    rwa [generate_mock_data_length] at hlt
  have hre : r = mockRow now (basePrices ticker) draws (numPeriods interval) i := by
    have := (generate_mock_data_getElem? ticker period interval now draws i hilt).symm.trans hr
    exact (Option.some.inj this).symm
  subst hre
  obtain ⟨ho1, -, hc1, -, hh1, -, -, hl2, -, -⟩ := hval
  have hOpen : 0 < mockPrice (basePrices ticker) draws i * (draws i).uOpen :=
    mul_pos hpos (lt_of_lt_of_le (by norm_num) ho1)
  have hClose : 0 < mockPrice (basePrices ticker) draws i * (draws i).uClose :=
    mul_pos hpos (lt_of_lt_of_le (by norm_num) hc1)
  refine ⟨?_, min_le_max, ?_⟩
  · exact mul_le_of_le_one_right (le_of_lt (lt_min_iff.mpr ⟨hOpen, hClose⟩)) (le_of_lt hl2)
  · exact le_mul_of_one_le_right (le_of_lt (lt_max_iff.mpr (Or.inl hOpen))) hh1

/-- C10 witness: the invariant instantiated at row 0 of the BTC series
under zero-drift in-range draws. -/
theorem mock_ohlc_invariant_witness :
    (mockRow 0 (basePrices "BTC-USD") calmDraws (numPeriods "1d") 0).Low ≤
      min (mockRow 0 (basePrices "BTC-USD") calmDraws (numPeriods "1d") 0).Open
        (mockRow 0 (basePrices "BTC-USD") calmDraws (numPeriods "1d") 0).Close :=
  (mock_ohlc_invariant "BTC-USD" "1y" "1d" 0 calmDraws 0
    (by norm_num [calmDraws, RowDraws.valid])
    (by
      have he : mockPrice (basePrices "BTC-USD") calmDraws 0 = 42500 * (1 + 0) := rfl
      rw [he]
      norm_num)
    (mockRow 0 (basePrices "BTC-USD") calmDraws (numPeriods "1d") 0)
    (generate_mock_data_getElem? "BTC-USD" "1y" "1d" 0 calmDraws 0
      (by norm_num [numPeriods]))).1

end MockClaims

end CryptoDash
